import Mathlib

/-!
Verification development for the darwin-scaffold-studio repository.

Part 1 models the desktop process supervisor
(`src/desktop/src-tauri/src/julia_bridge.rs` and
`src/desktop/src-tauri/src/state.rs`): the global process slot
(`JULIA_PROCESS: Mutex<Option<Child>>`), the shared `AppState`, and the
`start_julia_server` / `stop_julia_server` / `is_julia_running` operations.
The operations are pure state transformers over a `SystemState`; OS effects
(spawn success/failure, kill success/failure, health-probe answers) are
supplied by explicit environment records.  The mutexes in the source
serialize every operation, so sequential composition of these transformers
models every interleaving of calls.
-/

namespace Desktop

/-- `AppSettings` from `state.rs`. -/
structure AppSettings where
  theme : String
  julia_server_url : String
  auto_start_julia : Bool
  default_material : String
  default_tissue : String
  default_voxel_size : Float

/-- The `Default` impl for `AppSettings` in `state.rs`. -/
def AppSettings.default : AppSettings :=
  { theme := "dark"
    julia_server_url := "http://localhost:8081"
    auto_start_julia := true
    default_material := "PCL"
    default_tissue := "bone"
    default_voxel_size := 10.0 }

/-- `WorkspaceState` from `state.rs`. -/
structure WorkspaceState where
  id : String
  name : String
  file_path : Option String
  modified : Bool

/-- `AppState` from `state.rs` (the `HashMap` of workspaces is modelled as an
association list). -/
structure AppState where
  julia_running : Bool
  julia_pid : Option Nat
  settings : AppSettings
  workspaces : List (String × WorkspaceState)
  current_workspace : Option String

/-- The derived `Default` for `AppState`: `false`, `None`, default settings,
empty map, `None`. -/
def AppState.default : AppState :=
  { julia_running := false
    julia_pid := none
    settings := AppSettings.default
    workspaces := []
    current_workspace := none }

/-- The whole mutable state of the desktop app: the global
`JULIA_PROCESS: Mutex<Option<Child>>` slot (a child is represented by its
pid, which is all the code reads from it) together with the Tauri-managed
`Mutex<AppState>`.  `main.rs` calls `.manage(Mutex::new(AppState::default()))`
before any command runs, so the `app.try_state` lookups in `julia_bridge.rs`
always find the state; the model therefore keeps it always present. -/
structure SystemState where
  slot : Option Nat
  appState : AppState

/-- The state at program start: empty process slot, default `AppState`. -/
def initialState : SystemState :=
  { slot := none, appState := AppState.default }

/-- `JuliaError` from `julia_bridge.rs`. -/
inductive JuliaError where
  | startError
  | notRunning
  | connectionError
deriving DecidableEq

/-- Environment for one `start_julia_server` call: whether the working
directory resolution plus `Command::spawn` succeed (and with which pid), and
the answer of each successive `GET /health` probe (`probe i = true` means the
`i`-th probe, counting from 0, got a 2xx response; `false` covers both
transport failures and non-2xx statuses, which the source treats alike). -/
structure StartEnv where
  spawnResult : Option Nat
  probe : Nat → Bool

/-- Environment for one `stop_julia_server` call: whether `child.kill()`
succeeds. -/
structure StopEnv where
  killOk : Bool

/-- Result of the bounded readiness-probe loop in `start_julia_server`
(lines 71-81): whether a probe succeeded, how many `GET /health` requests
were issued, and how many 1-second sleeps the loop performed. -/
structure ProbeOutcome where
  ready : Bool
  probes : Nat
  sleeps : Nat
deriving DecidableEq

/-- The probe loop `for _ in 0..remaining`: issue a GET; on 2xx return
immediately; otherwise sleep one interval and retry. -/
def probeRun (probe : Nat → Bool) (start remaining : Nat) : ProbeOutcome :=
  match remaining with
  | 0 => ⟨false, 0, 0⟩
  | n + 1 =>
    if probe start then ⟨true, 1, 0⟩
    else
      let r := probeRun probe (start + 1) n
      ⟨r.ready, r.probes + 1, r.sleeps + 1⟩

/-- The retry budget of the loop in `start_julia_server`: `for _ in 0..30`. -/
def probeBudget : Nat := 30

/-- Outcome of a `start_julia_server` call: the returned
`Result<(), JuliaError>`, the state afterwards, the number of OS spawn
attempts made by this call, and the probe-loop counters. -/
structure StartOutcome where
  result : Except JuliaError Unit
  state : SystemState
  spawns : Nat
  probes : Nat
  loopSleeps : Nat

/-- `start_julia_server` from `julia_bridge.rs`.  Locks the process slot for
the whole call; returns `Ok(())` immediately if the slot is occupied;
otherwise spawns (a directory/spawn failure is `StartError`), stores the
child in the slot, sets `julia_running`/`julia_pid` in `AppState`, then runs
the readiness-probe loop; a probe success gives `Ok(())`, exhaustion of the
budget gives `ConnectionError` (the spawned process is left untouched).
Elapsed time is modelled by the loop's sleep count only; the fixed
5-second sleep the source takes before the first probe happens outside the
probe loop and is not counted. -/
def start_julia_server (env : StartEnv) (σ : SystemState) : StartOutcome :=
  match σ.slot with
  | some _ => ⟨.ok (), σ, 0, 0, 0⟩
  | none =>
    match env.spawnResult with
    | none => ⟨.error .startError, σ, 1, 0, 0⟩
    | some pid =>
      let σ1 : SystemState :=
        { slot := some pid
          appState :=
            { σ.appState with julia_running := true, julia_pid := some pid } }
      let r := probeRun env.probe 0 probeBudget
      if r.ready then ⟨.ok (), σ1, 1, r.probes, r.sleeps⟩
      else ⟨.error .connectionError, σ1, 1, r.probes, r.sleeps⟩

/-- Outcome of a `stop_julia_server` call. -/
structure StopOutcome where
  result : Except JuliaError Unit
  state : SystemState

/-- `stop_julia_server` from `julia_bridge.rs`.  `process_guard.take()`
empties the slot unconditionally; if a child was present, `child.kill()` is
attempted and a failure returns `Err(StartError(..))` via `?` — which skips
the `AppState` update; on the success path (and when no child was present)
`julia_running`/`julia_pid` are cleared. -/
def stop_julia_server (env : StopEnv) (σ : SystemState) : StopOutcome :=
  match σ.slot with
  | some _ =>
    if env.killOk then
      ⟨.ok (),
        { slot := none
          appState :=
            { σ.appState with julia_running := false, julia_pid := none } }⟩
    else
      ⟨.error .startError, { slot := none, appState := σ.appState }⟩
  | none =>
    ⟨.ok (),
      { slot := none
        appState :=
          { σ.appState with julia_running := false, julia_pid := none } }⟩

/-- `is_julia_running` from `julia_bridge.rs`: the slot is occupied. -/
def is_julia_running (σ : SystemState) : Bool :=
  σ.slot.isSome

/-- States reachable from program start by any sequence of
`start_julia_server` / `stop_julia_server` calls (the two mutexes serialize
the calls, so sequential composition covers all interleavings). -/
inductive Reachable : SystemState → Prop
  | init : Reachable initialState
  | start (env : StartEnv) (σ : SystemState) :
      Reachable σ → Reachable (start_julia_server env σ).state
  | stop (env : StopEnv) (σ : SystemState) :
      Reachable σ → Reachable (stop_julia_server env σ).state

/-- The `pid`-iff-`running` invariant on the shared `AppState`. -/
def pidIffRunning (σ : SystemState) : Prop :=
  σ.appState.julia_pid.isSome = σ.appState.julia_running

/-- A concrete state with a live backend (pid 7): exactly the state reached
by one successful `start_julia_server` from `initialState`. -/
def sampleRunningState : SystemState :=
  { slot := some 7
    appState :=
      { AppState.default with julia_running := true, julia_pid := some 7 } }

end Desktop

/-!
Part 2 models the JSON values and the JSON text round-trip performed by the
gateway in `src/darwin-server/src/main.rs`.  The gateway's `proxy_to_julia`
re-parses the backend's body with `res.json::<serde_json::Value>()` and
re-serializes it with axum's `Json(..)` responder, so byte-level claims about
the gateway need an executable model of serde_json's default `Value`:

  * objects are `BTreeMap`s — parsing inserts members in key order (later
    duplicate keys overwrite earlier ones) and serialization emits the stored
    order;
  * serialization is compact (no whitespace);
  * numbers are modelled as integers (the payloads in this development never
    exercise fractions or exponents) and strings are modelled up to the
    escape-free fragment (no `"`, no `\`, no control characters), which the
    well-formedness predicate `wfJson` makes explicit.
-/

namespace Server

/-- The brace characters, by code point. -/
def lbrace : Char := Char.ofNat 123

/-- The closing brace character. -/
def rbrace : Char := Char.ofNat 125

mutual
/-- serde_json `Value`, with objects as ordered association structures
(the parser below keeps them in `BTreeMap` key order). -/
inductive Json where
  | null
  | bool (b : Bool)
  | num (n : Int)
  | str (s : String)
  | arr (xs : JsonList)
  | obj (fs : JsonObj)
inductive JsonList where
  | nil
  | cons (hd : Json) (tl : JsonList)
inductive JsonObj where
  | nil
  | cons (key : String) (val : Json) (tl : JsonObj)
end

/-- A JSON-safe character: printable, not `"`, not `\` (the modelled
escape-free fragment). -/
def charOk (c : Char) : Bool :=
  c ≠ '"' && c ≠ '\\' && !(c.toNat < 32)

/-- A string in the modelled escape-free fragment. -/
def strOk (s : String) : Bool :=
  s.data.all charOk

/-- The decimal digit characters. -/
def digitCh (d : Nat) : Char :=
  match d with
  | 0 => '0' | 1 => '1' | 2 => '2' | 3 => '3' | 4 => '4'
  | 5 => '5' | 6 => '6' | 7 => '7' | 8 => '8' | _ => '9'

/-- Decimal digits of `m`, least significant first (`fuel ≥ m` suffices). -/
def natDigitsAux : Nat → Nat → List Char
  | 0, _ => []
  | fuel + 1, m =>
    if m = 0 then [] else digitCh (m % 10) :: natDigitsAux fuel (m / 10)

/-- Compact decimal rendering of a natural number, as serde_json's itoa
does it. -/
def serNatChars (m : Nat) : List Char :=
  if m = 0 then ['0'] else (natDigitsAux m m).reverse

/-- Compact decimal rendering of an integer. -/
def serIntChars (n : Int) : List Char :=
  if n < 0 then '-' :: serNatChars n.natAbs else serNatChars n.toNat

mutual
/-- Compact serialization to characters, exactly as
`serde_json::to_string` renders a `Value` (no whitespace, object members in
stored order, strings without escapes in the modelled fragment). -/
def serC : Json → List Char
  | .null => "null".data
  | .bool true => "true".data
  | .bool false => "false".data
  | .num n => serIntChars n
  | .str s => '"' :: s.data ++ ['"']
  | .arr xs => '[' :: serL xs ++ [']']
  | .obj fs => lbrace :: serO fs ++ [rbrace]
def serL : JsonList → List Char
  | .nil => []
  | .cons v tl => serC v ++ serLTail tl
def serLTail : JsonList → List Char
  | .nil => []
  | .cons v tl => ',' :: (serC v ++ serLTail tl)
def serO : JsonObj → List Char
  | .nil => []
  | .cons k v tl => '"' :: k.data ++ ('"' :: ':' :: serC v) ++ serOTail tl
def serOTail : JsonObj → List Char
  | .nil => []
  | .cons k v tl =>
    ',' :: ('"' :: k.data ++ ('"' :: ':' :: serC v) ++ serOTail tl)
end

/-- `serde_json::to_string` / axum's `Json` responder body. -/
def serialize (v : Json) : String :=
  String.mk (serC v)

/-- Lexicographic order on character lists (by code point, which on the
modelled fragment coincides with Rust's byte-wise `String` order). -/
def charListLt : List Char → List Char → Bool
  | _, [] => false
  | [], _ :: _ => true
  | x :: xs, y :: ys =>
    if x.toNat < y.toNat then true
    else if y.toNat < x.toNat then false
    else charListLt xs ys

/-- Rust `String` ordering (lexicographic, as `BTreeMap` keys compare). -/
def keyLt (a b : String) : Bool :=
  charListLt a.data b.data

/-- `BTreeMap::insert` on the ordered member structure: insert in key order;
an already-present key keeps the stored value (the parser inserts the
*later* members first, so keeping the stored value makes the later duplicate
win, as sequential `BTreeMap` insertion does). -/
def insertKV (k : String) (v : Json) : JsonObj → JsonObj
  | .nil => .cons k v .nil
  | .cons k' v' tl =>
    if keyLt k k' then .cons k v (.cons k' v' tl)
    else if k = k' then .cons k' v' tl
    else .cons k' v' (insertKV k v tl)

/-- JSON whitespace. -/
def isWs (c : Char) : Bool :=
  c = ' ' || c = '\t' || c = '\n' || c = '\r'

/-- Skip leading whitespace. -/
def skipWs : List Char → List Char
  | [] => []
  | c :: cs => if isWs c then skipWs cs else c :: cs

/-- Numeric value of a digit character. -/
def digitVal (c : Char) : Nat :=
  c.toNat - 48

/-- Split off the maximal leading run of digit characters. -/
def takeDigits : List Char → List Char × List Char
  | [] => ([], [])
  | c :: cs =>
    if c.isDigit then
      let p := takeDigits cs
      (c :: p.1, p.2)
    else ([], c :: cs)

/-- Decimal value of a digit run (most significant first). -/
def digitsToNat (ds : List Char) : Nat :=
  ds.foldl (fun a c => 10 * a + digitVal c) 0

/-- JSON's integer syntax: nonempty, and a leading `0` only for `0` itself. -/
def validDigits : List Char → Bool
  | [] => false
  | c :: cs => if c = '0' then cs.isEmpty else true

/-- Parse a number (integer fragment) from its first character on. -/
def parseNum : List Char → Option (Json × List Char)
  | [] => none
  | c :: cs =>
    if c = '-' then
      let p := takeDigits cs
      if validDigits p.1 then
        some (.num (-(digitsToNat p.1 : Int)), p.2)
      else none
    else
      let p := takeDigits (c :: cs)
      if validDigits p.1 then
        some (.num ((digitsToNat p.1 : Int)), p.2)
      else none

/-- Parse the remainder of a string literal (after the opening quote) up to
the closing quote; escapes and control characters are outside the modelled
fragment. -/
def parseStrRest : List Char → Option (List Char × List Char)
  | [] => none
  | c :: cs =>
    if c = '"' then some ([], cs)
    else if c = '\\' || decide (c.toNat < 32) then none
    else
      match parseStrRest cs with
      | some p => some (c :: p.1, p.2)
      | none => none

mutual
/-- Recursive-descent JSON value parser (serde_json grammar restricted to
the integer/escape-free fragment), fuel-bounded for termination; one unit of
fuel is spent per nested value, so fuel exceeding the text length always
suffices. -/
def parseVal : Nat → List Char → Option (Json × List Char)
  | 0, _ => none
  | fuel + 1, cs =>
    match skipWs cs with
    | [] => none
    | c :: cs' =>
      if c = '-' || c.isDigit then parseNum (c :: cs')
      else if c = '"' then
        match parseStrRest cs' with
        | some p => some (.str (String.mk p.1), p.2)
        | none => none
      else if c = 'n' then
        match cs' with
        | 'u' :: 'l' :: 'l' :: rest => some (.null, rest)
        | _ => none
      else if c = 't' then
        match cs' with
        | 'r' :: 'u' :: 'e' :: rest => some (.bool true, rest)
        | _ => none
      else if c = 'f' then
        match cs' with
        | 'a' :: 'l' :: 's' :: 'e' :: rest => some (.bool false, rest)
        | _ => none
      else if c = '[' then
        match skipWs cs' with
        | [] => none
        | d :: rest =>
          if d = ']' then some (.arr .nil, rest)
          else
            match parseElems fuel (d :: rest) with
            | some p => some (.arr p.1, p.2)
            | none => none
      else if c = lbrace then
        match skipWs cs' with
        | [] => none
        | d :: rest =>
          if d = rbrace then some (.obj .nil, rest)
          else
            match parseMembers fuel (d :: rest) with
            | some p => some (.obj p.1, p.2)
            | none => none
      else none
def parseElems : Nat → List Char → Option (JsonList × List Char)
  | 0, _ => none
  | fuel + 1, cs =>
    match parseVal fuel cs with
    | none => none
    | some p =>
      match skipWs p.2 with
      | [] => none
      | d :: rest =>
        if d = ',' then
          match parseElems fuel rest with
          | some q => some (.cons p.1 q.1, q.2)
          | none => none
        else if d = ']' then some (.cons p.1 .nil, rest)
        else none
def parseMembers : Nat → List Char → Option (JsonObj × List Char)
  | 0, _ => none
  | fuel + 1, cs =>
    match skipWs cs with
    | [] => none
    | c :: cs' =>
      if c = '"' then
        match parseStrRest cs' with
        | none => none
        | some k =>
          match skipWs k.2 with
          | [] => none
          | d :: r2 =>
            if d = ':' then
              match parseVal fuel r2 with
              | none => none
              | some v =>
                match skipWs v.2 with
                | [] => none
                | e :: r3 =>
                  if e = ',' then
                    match parseMembers fuel r3 with
                    | some q => some (insertKV (String.mk k.1) v.1 q.1, q.2)
                    | none => none
                  else if e = rbrace then
                    some (.cons (String.mk k.1) v.1 .nil, r3)
                  else none
            else none
      else none
end

/-- `serde_json::from_str::<Value>` / `res.json::<Value>()`: parse one value
and require only trailing whitespace after it. -/
def parseJson (s : String) : Option Json :=
  match parseVal (s.data.length + 1) s.data with
  | some p =>
    match skipWs p.2 with
    | [] => some p.1
    | _ :: _ => none
  | none => none

/-- Key-order condition for the leading member of an object. -/
def keyLtHead (k : String) : JsonObj → Bool
  | .nil => true
  | .cons k2 _ _ => keyLt k k2

mutual
/-- Values in the modelled fragment that a serde_json `Value` can actually
hold: escape-free strings and keys, objects in strictly increasing
`BTreeMap` key order. -/
def wfJson : Json → Bool
  | .null => true
  | .bool _ => true
  | .num _ => true
  | .str s => strOk s
  | .arr xs => wfL xs
  | .obj fs => wfO fs
def wfL : JsonList → Bool
  | .nil => true
  | .cons v tl => wfJson v && wfL tl
def wfO : JsonObj → Bool
  | .nil => true
  | .cons k v tl => strOk k && wfJson v && wfO tl && keyLtHead k tl
end

/-- Lookup in an object, as `Value::get` / serde field access. -/
def getField (k : String) : JsonObj → Option Json
  | .nil => none
  | .cons k' v tl => if k' = k then some v else getField k tl

/-- The list does not begin with a digit (so a maximal digit run read before
it stops exactly there). -/
def notDigitStart : List Char → Bool
  | [] => true
  | c :: _ => !c.isDigit

/-- `Value::get(key)` on a JSON value: succeeds only on objects. -/
def Json.getKey (k : String) : Json → Option Json
  | .obj fs => getField k fs
  | _ => none

/-!
Part 3 models the HTTP proxy gateway of `src/darwin-server/src/main.rs`:
`proxy_to_julia` and the three proxied handlers `analyze_handler`,
`optimize_handler`, `mesh_handler`.  The backend is an oracle mapping the
request (url, body) to either a transport-level failure or a reply
`(status, body-bytes)`; the oracle is invoked once per call, mirroring the
single `client.post(..).send().await` in the source.
-/

/-- What one `reqwest` round trip to the backend produced: `Err(e)` from
`send()` (transport failure), or a reply with its status and body bytes. -/
inductive BackendReply where
  | transportError (msg : String)
  | reply (status : Nat) (body : String)

/-- The response the gateway hands to axum: a status code plus the
`serde_json::Value` passed to `Json(..)` (whose bytes on the wire are
`serialize body`). -/
structure GatewayResponse where
  status : Nat
  body : Json

/-- A gateway call together with the backend requests it issued
(each as url × body), so that "contacted exactly once, never retried"
is part of the model. -/
structure ProxyTrace where
  response : GatewayResponse
  requests : List (String × String)

/-- The message `reqwest` produces when a reply body fails to decode as
JSON (`res.json::<Value>().await` errors); the gateway stringifies it into
its 500 response. -/
def decodeErrMsg : String := "error decoding response body"

/-- `proxy_to_julia` from `main.rs`: POST the payload to
`{base_url}/{endpoint}`; on transport failure reply
`502 {"error": e}`; on a reply, re-parse the body as a `Value` and forward
`(status, body)`; if the body fails to parse, reply `500 {"error": e}`. -/
def proxy_to_julia (backend : String → String → BackendReply)
    (base_url endpoint : String) (payload : Json) : ProxyTrace :=
  let url := base_url ++ "/" ++ endpoint
  let reqBody := serialize payload
  match backend url reqBody with
  | .transportError e =>
    ⟨⟨502, .obj (.cons "error" (.str e) .nil)⟩, [(url, reqBody)]⟩
  | .reply status body =>
    match parseJson body with
    | some v => ⟨⟨status, v⟩, [(url, reqBody)]⟩
    | none =>
      ⟨⟨500, .obj (.cons "error" (.str decodeErrMsg) .nil)⟩, [(url, reqBody)]⟩

/-- The gateway's `AppState` (`main.rs`): backend base url and upload dir. -/
structure GatewayAppState where
  julia_url : String
  upload_dir : String

/-- The state built in `main`: `http://127.0.0.1:8081`, `/tmp/darwin_uploads`. -/
def gatewayState : GatewayAppState :=
  { julia_url := "http://127.0.0.1:8081", upload_dir := "/tmp/darwin_uploads" }

/-- `analyze_handler`: proxy the opaque payload to the `analyze` endpoint. -/
def analyze_handler (backend : String → String → BackendReply)
    (state : GatewayAppState) (payload : Json) : ProxyTrace :=
  proxy_to_julia backend state.julia_url "analyze" payload

/-- `optimize_handler`: proxy the opaque payload to `optimize`. -/
def optimize_handler (backend : String → String → BackendReply)
    (state : GatewayAppState) (payload : Json) : ProxyTrace :=
  proxy_to_julia backend state.julia_url "optimize" payload

/-- `mesh_handler`: proxy the opaque payload to `mesh`. -/
def mesh_handler (backend : String → String → BackendReply)
    (state : GatewayAppState) (payload : Json) : ProxyTrace :=
  proxy_to_julia backend state.julia_url "mesh" payload

/-!
Part 4 models the WebSocket agent-chat of `src/darwin-server/src/agents.rs`.
`main.rs` creates ONE `Arc<Mutex<AgentWorkspaceState>>` ("Agent workspace
(shared across WebSocket connections)") and every upgraded connection's
`handle_agent_socket` receives a clone of that same `Arc`, so the model
keeps a single `AgentWorkspaceState` value that every connection handler
reads and writes.
-/

/-- `AgentMessage` from `agents.rs` (`timestamp: u64`). -/
structure AgentMessage where
  agent_type : String
  content : String
  timestamp : Nat

/-- `ToolCall` from `agents.rs`. -/
structure ToolCall where
  tool_name : String
  args : Json
  result : Option Json

/-- `AgentResponse` from `agents.rs`. -/
structure AgentResponse where
  agent_name : String
  response : String
  tool_calls : List ToolCall
  status : String

/-- `AgentWorkspaceState` from `agents.rs`. -/
structure AgentWorkspaceState where
  scaffolds : List String
  metrics : Json
  chat_history : List (String × String)

/-- `AgentWorkspaceState::new()`: empty scaffolds, `json!({})`, empty
history. -/
def AgentWorkspaceState.new : AgentWorkspaceState :=
  { scaffolds := [], metrics := .obj .nil, chat_history := [] }

/-- serde's `Deserialize` for `AgentMessage` applied to a text frame:
the text must be a JSON object carrying a string `agent_type`, a string
`content` and a `u64` `timestamp` (unknown extra fields are ignored, as
serde does by default). -/
def parseAgentMessage (text : String) : Option AgentMessage :=
  match parseJson text with
  | some (.obj fs) =>
    match getField "agent_type" fs, getField "content" fs,
        getField "timestamp" fs with
    | some (.str a), some (.str c), some (.num t) =>
      if t < 0 then none else some ⟨a, c, t.toNat⟩
    | _, _, _ => none
  | _ => none

/-- `route_to_agent` from `agents.rs` (the local mock responder): dispatch
the agent name on `agent_type` and synthesize a completed response. -/
def route_to_agent (msg : AgentMessage) : AgentResponse :=
  let agent_name :=
    match msg.agent_type with
    | "design" => "Design Agent"
    | "analysis" => "Analysis Agent"
    | "synthesis" => "Synthesis Agent"
    | _ => "Unknown Agent"
  { agent_name := agent_name
    response := "Processing your request: " ++ msg.content
    tool_calls := []
    status := "complete" }

/-- Build a `JsonList` from a list of values. -/
def JsonList.ofList : List Json → JsonList
  | [] => .nil
  | v :: vs => .cons v (JsonList.ofList vs)

/-- serde serialization of a `ToolCall` (struct fields in declaration
order; `Option::None` becomes `null`). -/
def ToolCall.toJson (t : ToolCall) : Json :=
  .obj (.cons "tool_name" (.str t.tool_name)
    (.cons "args" t.args
      (.cons "result" (match t.result with | some r => r | none => .null)
        .nil)))

/-- serde serialization of an `AgentResponse` (struct fields in declaration
order). -/
def AgentResponse.toJson (r : AgentResponse) : Json :=
  .obj (.cons "agent_name" (.str r.agent_name)
    (.cons "response" (.str r.response)
      (.cons "tool_calls" (.arr (JsonList.ofList (r.tool_calls.map ToolCall.toJson)))
        (.cons "status" (.str r.status) .nil))))

/-- The text frame `handle_agent_socket` sends for a response
(`serde_json::to_string(&response)`). -/
def serializeAgentResponse (r : AgentResponse) : String :=
  serialize r.toJson

/-- The welcome notice sent on connection open (`json!` builds a `Value`
whose `BTreeMap` serializes its two keys in sorted order). -/
def welcomeMessage : String :=
  serialize (.obj (.cons "content"
      (.str "Darwin Research Hub initialized. Agents ready.")
    (.cons "type" (.str "system") .nil)))

/-- An incoming WebSocket frame (`axum::extract::ws::Message`). -/
inductive WsMessage where
  | text (s : String)
  | binary
  | ping
  | pong
  | close

/-- One iteration of the receive loop in `handle_agent_socket` for a text
frame, acting on the shared workspace: a frame that parses as an
`AgentMessage` appends `("user", content)` to the shared chat history and
produces the routed response frame; a frame that fails to parse is logged
and skipped — the workspace is untouched and nothing is sent. -/
def handleTextFrame (w : AgentWorkspaceState) (text : String) :
    AgentWorkspaceState × Option String :=
  match parseAgentMessage text with
  | some m =>
    let w' := { w with chat_history := w.chat_history ++ [("user", m.content)] }
    (w', some (serializeAgentResponse (route_to_agent m)))
  | none => (w, none)

/-- The receive loop of `handle_agent_socket` over a finite incoming
stream: text frames are handled, all other frames are skipped; the loop
ends when the stream does.  Sends are modelled as delivered (in the source
a failed send breaks the loop; no send happens at all on a parse failure,
so that path cannot break it).  Returns the final shared workspace and the
response frames sent, in order. -/
def runConnLoop (w : AgentWorkspaceState) :
    List WsMessage → AgentWorkspaceState × List String
  | [] => (w, [])
  | .text t :: rest =>
    let p := handleTextFrame w t
    let q := runConnLoop p.1 rest
    (q.1, p.2.toList ++ q.2)
  | _ :: rest => runConnLoop w rest

/-- `handle_agent_socket`: send the welcome frame, then run the receive
loop on the shared workspace. -/
def handle_agent_socket (w : AgentWorkspaceState) (frames : List WsMessage) :
    AgentWorkspaceState × List String :=
  let q := runConnLoop w frames
  (q.1, welcomeMessage :: q.2)

end Server

namespace Desktop

/-! Helper lemmas about the probe loop. -/

/-- If the first `k` probes fail and probe `k` succeeds within the budget,
the loop stops after exactly `k + 1` probes and `k` sleeps. -/
theorem probeRun_success (probe : Nat → Bool) :
    ∀ (k start remaining : Nat), k < remaining →
      (∀ i, i < k → probe (start + i) = false) →
      probe (start + k) = true →
      probeRun probe start remaining = ⟨true, k + 1, k⟩ := by
  intro k
  induction k with
  | zero =>
    intro start remaining hk _ hsucc
    match remaining, hk with
    | n + 1, _ =>
      simp only [probeRun]
      simpa using hsucc
  | succ k ih =>
    intro start remaining hk hfail hsucc
    match remaining, hk with
    | n + 1, hk =>
      have h0 : probe start = false := by simpa using hfail 0 (Nat.succ_pos k)
      have hrec : probeRun probe (start + 1) n = ⟨true, k + 1, k⟩ := by
        apply ih
        · omega
        · intro i hi
          have := hfail (i + 1) (by omega)
          simpa [Nat.add_assoc, Nat.add_comm 1 i] using this
        · have : start + 1 + k = start + (k + 1) := by omega
          rw [this]; exact hsucc
      simp only [probeRun, h0, if_neg]
      simp [hrec]

/-- If every probe within the budget fails, the loop exhausts the budget:
one probe and one sleep per budget unit, and no readiness. -/
theorem probeRun_timeout (probe : Nat → Bool) :
    ∀ (remaining start : Nat),
      (∀ i, i < remaining → probe (start + i) = false) →
      probeRun probe start remaining = ⟨false, remaining, remaining⟩ := by
  intro remaining
  induction remaining with
  | zero => intro start _; simp [probeRun]
  | succ n ih =>
    intro start hfail
    have h0 : probe start = false := by simpa using hfail 0 (Nat.succ_pos n)
    have hrec : probeRun probe (start + 1) n = ⟨false, n, n⟩ := by
      apply ih
      intro i hi
      have := hfail (i + 1) (by omega)
      simpa [Nat.add_assoc, Nat.add_comm 1 i] using this
    simp [probeRun, h0, hrec]

end Desktop

namespace Desktop

/-- The state after a successful start from `initialState` is
`sampleRunningState`. -/
theorem sampleRunningState_reachable : Reachable sampleRunningState := by
  have h : sampleRunningState =
      (start_julia_server ⟨some 7, fun _ => true⟩ initialState).state := rfl
  rw [h]
  exact Reachable.start _ _ Reachable.init

/-- Claim C1, counterexample: starting from the (reachable) state with a
live backend, a `stop_julia_server` call whose OS-level kill fails returns
an error and leaves `julia_running = true` and `julia_pid = Some 7` in the
shared state — the claim that stop() clears them unconditionally is false
on the code (`child.kill().map_err(..)?` returns before the state update). -/
theorem C1_counterexample :
    Reachable sampleRunningState
    ∧ (stop_julia_server ⟨false⟩ sampleRunningState).result =
        Except.error JuliaError.startError
    ∧ (stop_julia_server ⟨false⟩ sampleRunningState).state.appState.julia_running
        = true
    ∧ (stop_julia_server ⟨false⟩ sampleRunningState).state.appState.julia_pid
        = some 7 :=
  ⟨sampleRunningState_reachable, rfl, rfl, rfl⟩

/-- Claim C1, amended: every `stop_julia_server` call unconditionally
empties the process slot (so future starts are never blocked), and clears
`running`/`pid` in the shared state whenever it returns success; but when
the OS-level kill fails on a live process, it returns the error early and
leaves `running`/`pid` in the shared state unchanged (stale). -/
theorem C1_stop_clears :
    ∀ (env : StopEnv) (σ : SystemState),
      (stop_julia_server env σ).state.slot = none
      ∧ ((stop_julia_server env σ).result = Except.ok () →
          (stop_julia_server env σ).state.appState.julia_running = false
          ∧ (stop_julia_server env σ).state.appState.julia_pid = none)
      ∧ (env.killOk = false → σ.slot.isSome = true →
          (stop_julia_server env σ).state.appState = σ.appState
          ∧ (stop_julia_server env σ).result =
              Except.error JuliaError.startError) := by
  intro env σ
  cases hs : σ.slot with
  | none =>
    refine ⟨by simp [stop_julia_server, hs], by simp [stop_julia_server, hs], ?_⟩
    intro _ habs
    simp [hs] at habs
  | some p =>
    cases hk : env.killOk with
    | true =>
      refine ⟨by simp [stop_julia_server, hs, hk],
        by simp [stop_julia_server, hs, hk], ?_⟩
      intro habs
      simp [hk] at habs
    | false =>
      refine ⟨by simp [stop_julia_server, hs, hk], ?_, ?_⟩
      · intro habs
        simp [stop_julia_server, hs, hk] at habs
      · intro _ _
        constructor <;> simp [stop_julia_server, hs, hk]

/-- Witness for `C1_stop_clears` at the failing-kill input. -/
theorem C1_stop_clears_witness :
    (stop_julia_server ⟨false⟩ sampleRunningState).state.slot = none
    ∧ (stop_julia_server ⟨false⟩ sampleRunningState).state.appState =
        sampleRunningState.appState := by
  obtain ⟨h1, _, h3⟩ := C1_stop_clears ⟨false⟩ sampleRunningState
  exact ⟨h1, (h3 rfl rfl).1⟩

/-- Claim C2: `start_julia_server` is idempotent — with the process slot
occupied it returns success immediately with no spawn attempt and no state
change; and two sequential starts from an empty slot (the mutex serializes
concurrent calls into this sequence) perform exactly one spawn, the second
call returning success and leaving the single spawned process in place. -/
theorem C2_start_idempotent :
    (∀ (env : StartEnv) (σ : SystemState) (p : Nat), σ.slot = some p →
      start_julia_server env σ = ⟨Except.ok (), σ, 0, 0, 0⟩)
    ∧ (∀ (env1 env2 : StartEnv) (σ : SystemState) (pid : Nat),
        σ.slot = none → env1.spawnResult = some pid →
        (start_julia_server env1 σ).spawns = 1
        ∧ (start_julia_server env1 σ).state.slot = some pid
        ∧ (start_julia_server env2 (start_julia_server env1 σ).state).spawns = 0
        ∧ (start_julia_server env2 (start_julia_server env1 σ).state).result =
            Except.ok ()
        ∧ (start_julia_server env2 (start_julia_server env1 σ).state).state =
            (start_julia_server env1 σ).state) := by
  have hpart1 : ∀ (env : StartEnv) (σ : SystemState) (p : Nat),
      σ.slot = some p →
      start_julia_server env σ = ⟨Except.ok (), σ, 0, 0, 0⟩ := by
    intro env σ p hs
    simp [start_julia_server, hs]
  refine ⟨hpart1, ?_⟩
  intro env1 env2 σ pid hs he
  have hstate :
      (start_julia_server env1 σ).state.slot = some pid
      ∧ (start_julia_server env1 σ).spawns = 1 := by
    simp only [start_julia_server, hs, he]
    cases hr : (probeRun env1.probe 0 probeBudget).ready <;> simp [hr]
  have h2 := hpart1 env2 (start_julia_server env1 σ).state pid hstate.1
  exact ⟨hstate.2, hstate.1, by rw [h2], by rw [h2], by rw [h2]⟩

/-- Witness for `C2_start_idempotent`: the occupied-slot shortcut at
`sampleRunningState`, and the one-spawn property of a start pair from
`initialState`. -/
theorem C2_start_idempotent_witness :
    start_julia_server ⟨some 9, fun _ => true⟩ sampleRunningState =
      ⟨Except.ok (), sampleRunningState, 0, 0, 0⟩
    ∧ (start_julia_server ⟨some 7, fun _ => true⟩ initialState).spawns = 1
    ∧ (start_julia_server ⟨some 9, fun _ => true⟩
        (start_julia_server ⟨some 7, fun _ => true⟩ initialState).state).spawns
        = 0 := by
  refine ⟨C2_start_idempotent.1 _ _ 7 rfl, ?_, ?_⟩
  · exact (C2_start_idempotent.2 ⟨some 7, fun _ => true⟩
      ⟨some 9, fun _ => true⟩ initialState 7 rfl rfl).1
  · exact (C2_start_idempotent.2 ⟨some 7, fun _ => true⟩
      ⟨some 9, fun _ => true⟩ initialState 7 rfl rfl).2.2.1

/-- Claim C3: the initial shared state has `running = false` and
`pid = None`, and in every state reachable by `start_julia_server` /
`stop_julia_server` calls, `julia_pid` is `Some` exactly when
`julia_running` is `true` — both operations write the two fields together
(or, on the kill-failure path, write neither). -/
theorem C3_pid_iff_running :
    initialState.appState.julia_running = false
    ∧ initialState.appState.julia_pid = none
    ∧ ∀ σ : SystemState, Reachable σ →
        σ.appState.julia_pid.isSome = σ.appState.julia_running := by
  refine ⟨rfl, rfl, ?_⟩
  intro σ hσ
  induction hσ with
  | init => rfl
  | start env σ' _ ih =>
    cases hs : σ'.slot with
    | some p => simpa [start_julia_server, hs] using ih
    | none =>
      cases he : env.spawnResult with
      | none => simpa [start_julia_server, hs, he] using ih
      | some pid =>
        simp only [start_julia_server, hs, he]
        cases hr : (probeRun env.probe 0 probeBudget).ready <;> simp [hr]
  | stop env σ' _ ih =>
    cases hs : σ'.slot with
    | some p =>
      cases hk : env.killOk with
      | true => simp [stop_julia_server, hs, hk]
      | false => simpa [stop_julia_server, hs, hk] using ih
    | none => simp [stop_julia_server, hs]

/-- Witness for `C3_pid_iff_running` at the reachable state after one
successful start. -/
theorem C3_pid_iff_running_witness :
    sampleRunningState.appState.julia_pid.isSome =
      sampleRunningState.appState.julia_running :=
  C3_pid_iff_running.2.2 sampleRunningState sampleRunningState_reachable

/-- Claim C4: with the slot free and the spawn succeeding, if the health
endpoint fails the first `N` probes and answers 2xx on probe `N + 1`
(within the budget of 30), `start_julia_server` returns success after
exactly `N + 1` probes and `N` one-interval sleeps of the probe loop; if
every probe in the budget fails, it returns the timeout error
(`ConnectionError`) after exhausting the budget: 30 probes, 30 sleeps. -/
theorem C4_readiness_probing :
    (∀ (env : StartEnv) (σ : SystemState) (N pid : Nat),
      σ.slot = none → env.spawnResult = some pid →
      N < probeBudget → (∀ i, i < N → env.probe i = false) →
      env.probe N = true →
      (start_julia_server env σ).result = Except.ok ()
      ∧ (start_julia_server env σ).probes = N + 1
      ∧ (start_julia_server env σ).loopSleeps = N)
    ∧ (∀ (env : StartEnv) (σ : SystemState) (pid : Nat),
      σ.slot = none → env.spawnResult = some pid →
      (∀ i, i < probeBudget → env.probe i = false) →
      (start_julia_server env σ).result = Except.error JuliaError.connectionError
      ∧ (start_julia_server env σ).probes = probeBudget
      ∧ (start_julia_server env σ).loopSleeps = probeBudget) := by
  constructor
  · intro env σ N pid hs he hN hfail hsucc
    have hrun : probeRun env.probe 0 probeBudget = ⟨true, N + 1, N⟩ := by
      apply probeRun_success env.probe N 0 probeBudget hN
      · intro i hi
        simpa using hfail i hi
      · simpa using hsucc
    simp [start_julia_server, hs, he, hrun]
  · intro env σ pid hs he hfail
    have hrun : probeRun env.probe 0 probeBudget =
        ⟨false, probeBudget, probeBudget⟩ := by
      apply probeRun_timeout env.probe probeBudget 0
      intro i hi
      simpa using hfail i hi
    simp [start_julia_server, hs, he, hrun]

/-- Witness for `C4_readiness_probing`: a probe oracle succeeding on the
third probe (N = 2), and an always-failing oracle. -/
theorem C4_readiness_probing_witness :
    ((start_julia_server ⟨some 7, fun i => decide (i = 2)⟩ initialState).result
        = Except.ok ()
      ∧ (start_julia_server ⟨some 7, fun i => decide (i = 2)⟩ initialState).probes
        = 3
      ∧ (start_julia_server ⟨some 7, fun i => decide (i = 2)⟩
          initialState).loopSleeps = 2)
    ∧ ((start_julia_server ⟨some 7, fun _ => false⟩ initialState).result
        = Except.error JuliaError.connectionError
      ∧ (start_julia_server ⟨some 7, fun _ => false⟩ initialState).probes = 30
      ∧ (start_julia_server ⟨some 7, fun _ => false⟩ initialState).loopSleeps
        = 30) := by
  constructor
  · exact C4_readiness_probing.1 ⟨some 7, fun i => decide (i = 2)⟩
      initialState 2 7 rfl rfl (by decide) (by decide) (by decide)
  · exact C4_readiness_probing.2 ⟨some 7, fun _ => false⟩ initialState 7
      rfl rfl (by decide)

/-- Claim C6: when readiness probing times out, `start_julia_server`
returns an error, yet the spawned process stays in the slot and the shared
state keeps `running = true` with the pid set — the error does not roll
back the state written at spawn time. -/
theorem C6_timeout_keeps_process :
    ∀ (env : StartEnv) (σ : SystemState) (pid : Nat),
      σ.slot = none → env.spawnResult = some pid →
      (∀ i, i < probeBudget → env.probe i = false) →
      (start_julia_server env σ).result = Except.error JuliaError.connectionError
      ∧ (start_julia_server env σ).state.slot = some pid
      ∧ (start_julia_server env σ).state.appState.julia_running = true
      ∧ (start_julia_server env σ).state.appState.julia_pid = some pid := by
  intro env σ pid hs he hfail
  have hrun : probeRun env.probe 0 probeBudget =
      ⟨false, probeBudget, probeBudget⟩ := by
    apply probeRun_timeout env.probe probeBudget 0
    intro i hi
    simpa using hfail i hi
  simp [start_julia_server, hs, he, hrun]

/-- Witness for `C6_timeout_keeps_process` with an always-failing probe. -/
theorem C6_timeout_keeps_process_witness :
    (start_julia_server ⟨some 7, fun _ => false⟩ initialState).result =
        Except.error JuliaError.connectionError
    ∧ (start_julia_server ⟨some 7, fun _ => false⟩ initialState).state.slot =
        some 7
    ∧ (start_julia_server ⟨some 7, fun _ => false⟩
        initialState).state.appState.julia_running = true
    ∧ (start_julia_server ⟨some 7, fun _ => false⟩
        initialState).state.appState.julia_pid = some 7 :=
  C6_timeout_keeps_process ⟨some 7, fun _ => false⟩ initialState 7
    rfl rfl (by decide)

/-- Claim C10: after any `stop_julia_server` call — also one returning an
error because the kill failed — the slot holds no process, so
`is_julia_running` answers `false`, an immediately following stop returns
success, and an immediately following start does not take the
already-running shortcut but makes a spawn attempt. -/
theorem C10_stop_empties_slot :
    ∀ (env env' : StopEnv) (env'' : StartEnv) (σ : SystemState),
      (stop_julia_server env σ).state.slot = none
      ∧ is_julia_running (stop_julia_server env σ).state = false
      ∧ (stop_julia_server env' (stop_julia_server env σ).state).result =
          Except.ok ()
      ∧ (start_julia_server env'' (stop_julia_server env σ).state).spawns = 1 := by
  intro env env' env'' σ
  have hslot : (stop_julia_server env σ).state.slot = none := by
    cases hs : σ.slot with
    | none => simp [stop_julia_server, hs]
    | some p => cases hk : env.killOk <;> simp [stop_julia_server, hs, hk]
  have hstop2 : ∀ (e : StopEnv) (τ : SystemState), τ.slot = none →
      (stop_julia_server e τ).result = Except.ok () := by
    intro e τ ht
    simp [stop_julia_server, ht]
  have hstart1 : ∀ (e : StartEnv) (τ : SystemState), τ.slot = none →
      (start_julia_server e τ).spawns = 1 := by
    intro e τ ht
    cases he : e.spawnResult with
    | none => simp [start_julia_server, ht, he]
    | some pid =>
      simp only [start_julia_server, ht, he]
      cases hr : (probeRun e.probe 0 probeBudget).ready <;> simp [hr]
  exact ⟨hslot, by simp [is_julia_running, hslot], hstop2 env' _ hslot,
    hstart1 env'' _ hslot⟩

end Desktop

namespace Server

/-! Helper lemmas for the JSON round trip performed by the gateway. -/

/-- `skipWs` keeps a list whose head is not whitespace. -/
theorem skipWs_cons (c : Char) (cs : List Char) (h : isWs c = false) :
    skipWs (c :: cs) = c :: cs := by
  simp [skipWs, h]

/-- Parsing a string body consisting of safe characters stops exactly at
the closing quote. -/
theorem parseStrRest_append (l : List Char) (rest : List Char)
    (h : l.all charOk = true) :
    parseStrRest (l ++ '"' :: rest) = some (l, rest) := by
  induction l with
  | nil => simp [parseStrRest]
  | cons c cs ih =>
    rw [List.all_cons, Bool.and_eq_true] at h
    obtain ⟨hc, hcs⟩ := h
    simp only [charOk, Bool.and_eq_true, Bool.not_eq_true', decide_eq_false_iff_not,
      bne_iff_ne, ne_eq, decide_eq_true_eq] at hc
    have hq : (c = '"') = False := by simp [hc.1.1]
    have hbs : (c = '\\' || decide (c.toNat < 32)) = false := by
      have h1 : (c = '\\') = False := by simp [hc.1.2]
      have h2 : decide (c.toNat < 32) = false := by
        simp only [decide_eq_false_iff_not]
        omega
      simp [h1, h2]
    simp [parseStrRest, hq, hbs, ih hcs]

/-- A maximal digit run followed by a non-digit splits exactly. -/
theorem takeDigits_append (l rest : List Char)
    (hl : l.all Char.isDigit = true) (hr : notDigitStart rest = true) :
    takeDigits (l ++ rest) = (l, rest) := by
  induction l with
  | nil =>
    cases rest with
    | nil => simp [takeDigits]
    | cons c cs =>
      simp [notDigitStart] at hr
      simp [takeDigits, hr]
  | cons c cs ih =>
    rw [List.all_cons, Bool.and_eq_true] at hl
    obtain ⟨hc, hcs⟩ := hl
    simp [takeDigits, hc, ih hcs]

/-- Facts about the digit characters, by enumeration. -/
theorem digitCh_facts : ∀ d : Nat, d < 10 →
    (digitCh d).isDigit = true ∧ isWs (digitCh d) = false
    ∧ digitCh d ≠ '-' ∧ digitCh d ≠ ']' ∧ digitCh d ≠ rbrace
    ∧ digitCh d ≠ ',' := by
  decide

/-- A nonzero digit is not the character `0`. -/
theorem digitCh_ne_zero : ∀ d : Nat, d < 10 → d ≠ 0 → digitCh d ≠ '0' := by
  decide

/-- The numeric value of a digit character inverts `digitCh`. -/
theorem digitVal_digitCh : ∀ d : Nat, d < 10 → digitVal (digitCh d) = d := by
  decide

/-- The fueled digit extraction matches `Nat.digits 10`. -/
theorem natDigitsAux_eq :
    ∀ (fuel m : Nat), m ≤ fuel →
      natDigitsAux fuel m = (Nat.digits 10 m).map digitCh := by
  intro fuel
  induction fuel with
  | zero =>
    intro m hm
    have : m = 0 := by omega
    subst this
    simp [natDigitsAux]
  | succ f ih =>
    intro m hm
    by_cases h0 : m = 0
    · subst h0
      simp [natDigitsAux]
    · have hdig : Nat.digits 10 m = m % 10 :: Nat.digits 10 (m / 10) :=
        Nat.digits_def' (by norm_num) (Nat.pos_of_ne_zero h0)
      have hdiv : m / 10 ≤ f := by
        have := Nat.div_lt_self (Nat.pos_of_ne_zero h0) (by norm_num : 1 < 10)
        omega
      simp [natDigitsAux, h0, hdig, ih (m / 10) hdiv]

/-- Rendering of a nonzero natural: most-significant-first digits. -/
theorem serNatChars_eq (m : Nat) (h : m ≠ 0) :
    serNatChars m = ((Nat.digits 10 m).map digitCh).reverse := by
  simp [serNatChars, h, natDigitsAux_eq m m (le_refl m)]

/-- Every rendered character is a digit. -/
theorem serNat_all_digits (m : Nat) :
    (serNatChars m).all Char.isDigit = true := by
  by_cases h : m = 0
  · subst h
    decide
  · rw [serNatChars_eq m h]
    rw [List.all_eq_true]
    intro c hc
    rw [List.mem_reverse, List.mem_map] at hc
    obtain ⟨d, hd, rfl⟩ := hc
    exact (digitCh_facts d (Nat.digits_lt_base (by norm_num) hd)).1

/-- The rendering starts with a digit character; it is `0` only for `m = 0`. -/
theorem serNat_shape (m : Nat) :
    ∃ (d : Nat) (t : List Char),
      serNatChars m = digitCh d :: t ∧ d < 10 ∧ (m ≠ 0 → d ≠ 0) := by
  by_cases h : m = 0
  · subst h
    exact ⟨0, [], rfl, by norm_num, by simp⟩
  · rw [serNatChars_eq m h]
    have hne : Nat.digits 10 m ≠ [] := Nat.digits_ne_nil_iff_ne_zero.mpr h
    have hlast := Nat.getLast_digit_ne_zero 10 h
    rcases hrev : (Nat.digits 10 m).reverse with _ | ⟨d0, t0⟩
    · exfalso
      apply hne
      simpa using congrArg List.reverse hrev
    · have hd0 : d0 ∈ Nat.digits 10 m := by
        have : d0 ∈ (Nat.digits 10 m).reverse := by rw [hrev]; exact List.mem_cons_self _ _
        simpa using this
      have hd0lt : d0 < 10 := Nat.digits_lt_base (by norm_num) hd0
      have hd0ne : d0 ≠ 0 := by
        have hh : (Nat.digits 10 m).getLast? = some d0 := by
          rw [← List.head?_reverse, hrev]
          rfl
        have := List.getLast?_eq_getLast (Nat.digits 10 m) hne
        rw [this] at hh
        have := Option.some.inj hh
        rw [← this]
        exact hlast
      refine ⟨d0, t0.map digitCh, ?_, hd0lt, fun _ => hd0ne⟩
      rw [← List.map_reverse, hrev]
      rfl

/-- The rendering satisfies JSON's leading-zero rule. -/
theorem serNat_validDigits (m : Nat) : validDigits (serNatChars m) = true := by
  obtain ⟨d, t, hser, hdlt, hdz⟩ := serNat_shape m
  by_cases h : m = 0
  · subst h
    decide
  · rw [hser]
    have : (digitCh d = '0') = False := by
      simp [digitCh_ne_zero d hdlt (hdz h)]
    simp [validDigits, this]

/-- Folding decimal accumulation over most-significant-first digits. -/
theorem foldl_digits (ds : List Nat) :
    ∀ acc : Nat, (∀ d ∈ ds, d < 10) →
      List.foldl (fun a c => 10 * a + digitVal c) acc
          ((ds.map digitCh).reverse)
        = acc * 10 ^ ds.length + Nat.ofDigits 10 ds := by
  induction ds with
  | nil => intro acc _; simp [Nat.ofDigits]
  | cons d tl ih =>
    intro acc hmem
    have hd : d < 10 := hmem d (List.mem_cons_self _ _)
    have htl : ∀ x ∈ tl, x < 10 := fun x hx => hmem x (List.mem_cons_of_mem _ hx)
    have : ((d :: tl).map digitCh).reverse
        = (tl.map digitCh).reverse ++ [digitCh d] := by
      simp
    rw [this, List.foldl_append, ih acc htl]
    simp only [List.foldl_cons, List.foldl_nil]
    rw [digitVal_digitCh d hd, Nat.ofDigits_cons]
    simp only [List.length_cons, pow_succ]
    ring

/-- The parser's numeric fold inverts the rendering. -/
theorem digitsToNat_serNat (m : Nat) : digitsToNat (serNatChars m) = m := by
  by_cases h : m = 0
  · subst h
    decide
  · rw [serNatChars_eq m h]
    unfold digitsToNat
    rw [← List.map_reverse]
    rw [List.map_reverse]
    rw [foldl_digits (Nat.digits 10 m) 0
      (fun d hd => Nat.digits_lt_base (by norm_num) hd)]
    simp [Nat.ofDigits_digits]

/-- The three parsing facts about a rendered natural in one package. -/
theorem serNat_parse_core (m : Nat) (rest : List Char)
    (hr : notDigitStart rest = true) :
    takeDigits (serNatChars m ++ rest) = (serNatChars m, rest)
    ∧ validDigits (serNatChars m) = true
    ∧ digitsToNat (serNatChars m) = m :=
  ⟨takeDigits_append _ _ (serNat_all_digits m) hr,
    serNat_validDigits m, digitsToNat_serNat m⟩

/-- `parseNum` inverts the integer rendering. -/
theorem parseNum_serInt (n : Int) (rest : List Char)
    (hr : notDigitStart rest = true) :
    parseNum (serIntChars n ++ rest) = some (.num n, rest) := by
  by_cases hn : n < 0
  · have habs : n.natAbs ≠ 0 := by omega
    obtain ⟨htake, hvalid, hval⟩ := serNat_parse_core n.natAbs rest hr
    have : serIntChars n ++ rest = '-' :: (serNatChars n.natAbs ++ rest) := by
      simp [serIntChars, hn]
    rw [this]
    simp only [parseNum, if_pos rfl, htake, hvalid, if_pos, hval]
    have : -((n.natAbs : Nat) : Int) = n := by omega
    rw [this]
  · obtain ⟨d, t, hser, hdlt, _⟩ := serNat_shape n.toNat
    obtain ⟨htake, hvalid, hval⟩ := serNat_parse_core n.toNat rest hr
    have hser2 : serIntChars n = serNatChars n.toNat := by
      simp [serIntChars, hn]
    rw [hser2, hser]
    have hdash : (digitCh d = '-') = False := by
      simp [(digitCh_facts d hdlt).2.2.1]
    have hback : digitCh d :: (t ++ rest) = serNatChars n.toNat ++ rest := by
      rw [hser]
      simp
    simp only [List.cons_append, parseNum, hdash, if_false]
    rw [hback, htake]
    simp only [hvalid, if_pos, hval]
    have : ((n.toNat : Nat) : Int) = n := by omega
    rw [this]

/-- The first character of a serialized value: never whitespace, never a
closing bracket, closing brace, or comma. -/
theorem serC_head (v : Json) :
    ∃ (h : Char) (t : List Char),
      serC v = h :: t ∧ isWs h = false ∧ h ≠ ']' ∧ h ≠ rbrace ∧ h ≠ ',' := by
  cases v with
  | null => exact ⟨'n', _, rfl, by decide⟩
  | bool b =>
    cases b with
    | true => exact ⟨'t', _, rfl, by decide⟩
    | false => exact ⟨'f', _, rfl, by decide⟩
  | num n =>
    by_cases hn : n < 0
    · refine ⟨'-', serNatChars n.natAbs, ?_, by decide⟩
      simp [serC, serIntChars, hn]
    · obtain ⟨d, t, hser, hdlt, _⟩ := serNat_shape n.toNat
      refine ⟨digitCh d, t, ?_, (digitCh_facts d hdlt).2.1,
        (digitCh_facts d hdlt).2.2.2.1, (digitCh_facts d hdlt).2.2.2.2.1,
        (digitCh_facts d hdlt).2.2.2.2.2⟩
      simp [serC, serIntChars, hn, hser]
  | str s => exact ⟨'"', _, rfl, by decide⟩
  | arr xs => exact ⟨'[', _, rfl, by decide⟩
  | obj fs => exact ⟨lbrace, _, rfl, by decide⟩

end Server

namespace Server

/-- The rendering of an integer starts with `-` or a digit. -/
theorem serInt_shape (n : Int) :
    ∃ (h : Char) (t : List Char), serIntChars n = h :: t ∧ isWs h = false
      ∧ (decide (h = '-') || h.isDigit) = true := by
  by_cases hn : n < 0
  · exact ⟨'-', serNatChars n.natAbs, by simp [serIntChars, hn], by decide,
      by decide⟩
  · obtain ⟨d, t, hser, hdlt, _⟩ := serNat_shape n.toNat
    refine ⟨digitCh d, t, by simp [serIntChars, hn, hser],
      (digitCh_facts d hdlt).2.1, ?_⟩
    simp [(digitCh_facts d hdlt).1]

/-- One parser step on a number head. -/
theorem parseVal_step_num (f : Nat) (c : Char) (cs : List Char)
    (h1 : isWs c = false) (h2 : (decide (c = '-') || c.isDigit) = true) :
    parseVal (f + 1) (c :: cs) = parseNum (c :: cs) := by
  simp [parseVal, skipWs_cons _ _ h1, h2]

/-- One parser step into an array body whose first element starts at `d`. -/
theorem parseVal_step_arr (f : Nat) (d : Char) (rest : List Char)
    (h1 : isWs d = false) (h2 : (d = ']') = False) :
    parseVal (f + 1) ('[' :: d :: rest)
      = match parseElems f (d :: rest) with
        | some p => some (.arr p.1, p.2)
        | none => none := by
  have e1 : parseVal (f + 1) ('[' :: d :: rest)
      = (match skipWs (d :: rest) with
         | [] => none
         | d' :: rest' =>
           if d' = ']' then some (.arr .nil, rest')
           else
             match parseElems f (d' :: rest') with
             | some p => some (.arr p.1, p.2)
             | none => none) := rfl
  rw [e1, skipWs_cons _ _ h1]
  simp [h2]

/-- One parser step into an object body whose first member starts at `d`. -/
theorem parseVal_step_obj (f : Nat) (d : Char) (rest : List Char)
    (h1 : isWs d = false) (h2 : (d = rbrace) = False) :
    parseVal (f + 1) (lbrace :: d :: rest)
      = match parseMembers f (d :: rest) with
        | some p => some (.obj p.1, p.2)
        | none => none := by
  have e1 : parseVal (f + 1) (lbrace :: d :: rest)
      = (match skipWs (d :: rest) with
         | [] => none
         | d' :: rest' =>
           if d' = rbrace then some (.obj .nil, rest')
           else
             match parseMembers f (d' :: rest') with
             | some p => some (.obj p.1, p.2)
             | none => none) := rfl
  rw [e1, skipWs_cons _ _ h1]
  simp [h2]

/-- The serialized tail of a nonempty list continues with a comma. -/
theorem serLTail_cons (v : Json) (tl : JsonList) :
    serLTail (.cons v tl) = ',' :: serL (.cons v tl) := by
  simp [serL, serLTail]

/-- The serialized tail of a nonempty member list continues with a comma. -/
theorem serOTail_cons (k : String) (v : Json) (tl : JsonObj) :
    serOTail (.cons k v tl) = ',' :: serO (.cons k v tl) := by
  simp [serO, serOTail]

end Server

namespace Server

/-- Round trip of the parser over the serializer: for every well-formed
value (and nonempty element/member list) and any sufficient fuel, parsing
the serialization consumes exactly it and returns the value. -/
theorem parse_serC :
    ∀ fuel : Nat,
      (∀ (v : Json) (rest : List Char), wfJson v = true →
        (serC v).length ≤ fuel → notDigitStart rest = true →
        parseVal fuel (serC v ++ rest) = some (v, rest))
      ∧ (∀ (xs : JsonList) (rest : List Char), wfL xs = true → xs ≠ .nil →
        (serL xs).length + 1 ≤ fuel →
        parseElems fuel (serL xs ++ ']' :: rest) = some (xs, rest))
      ∧ (∀ (fs : JsonObj) (rest : List Char), wfO fs = true → fs ≠ .nil →
        (serO fs).length + 1 ≤ fuel →
        parseMembers fuel (serO fs ++ rbrace :: rest) = some (fs, rest)) := by
  intro fuel
  induction fuel using Nat.strong_induction_on with
  | _ fuel ih =>
    match fuel with
    | 0 =>
      refine ⟨?_, ?_, ?_⟩
      · intro v rest _ hlen _
        obtain ⟨h, t, hser, _⟩ := serC_head v
        rw [hser] at hlen
        simp only [List.length_cons] at hlen
        omega
      · intro xs rest _ _ hlen
        omega
      · intro fs rest _ _ hlen
        omega
    | f + 1 =>
      obtain ⟨IHv, IHe, IHm⟩ := ih f (Nat.lt_succ_self f)
      refine ⟨?_, ?_, ?_⟩
      · intro v rest hwf hlen hnd
        cases v with
        | null => rfl
        | bool b => cases b <;> rfl
        | num n =>
          obtain ⟨h, t, hser, hws, hdig⟩ := serInt_shape n
          have hform : serC (.num n) ++ rest = h :: (t ++ rest) := by
            simp [serC, hser]
          rw [hform, parseVal_step_num f h (t ++ rest) hws hdig]
          have hback : h :: (t ++ rest) = serIntChars n ++ rest := by
            rw [hser]
            rfl
          rw [hback]
          exact parseNum_serInt n rest hnd
        | str s =>
          have hform : serC (.str s) ++ rest
              = '"' :: (s.data ++ '"' :: rest) := by
            simp [serC]
          rw [hform]
          have hstep : parseVal (f + 1) ('"' :: (s.data ++ '"' :: rest))
              = (match parseStrRest (s.data ++ '"' :: rest) with
                 | some p => some (.str (String.mk p.1), p.2)
                 | none => none) := rfl
          rw [hstep, parseStrRest_append s.data rest hwf]
        | arr xs =>
          cases xs with
          | nil => rfl
          | cons v' tl =>
            have hwf' : wfL (.cons v' tl) = true := hwf
            have hlen2 : (serL (.cons v' tl)).length + 1 ≤ f := by
              simp only [serC, List.length_append, List.length_cons,
                List.cons_append] at hlen
              simp only [List.length_append, List.length_cons, List.length_nil]
                at hlen ⊢
              omega
            obtain ⟨h, t, hser, hws, hne1, _, _⟩ := serC_head v'
            have hsplit : serL (.cons v' tl) ++ ']' :: rest
                = h :: (t ++ (serLTail tl ++ ']' :: rest)) := by
              simp [serL, hser]
            have hform : serC (.arr (.cons v' tl)) ++ rest
                = '[' :: (serL (.cons v' tl) ++ ']' :: rest) := by
              simp [serC]
            rw [hform, hsplit]
            rw [parseVal_step_arr f h (t ++ (serLTail tl ++ ']' :: rest)) hws
              (by simp [hne1])]
            rw [← hsplit]
            rw [IHe (.cons v' tl) rest hwf'
              (fun hcon => JsonList.noConfusion hcon) hlen2]
        | obj fs =>
          cases fs with
          | nil => rfl
          | cons k v' tl =>
            have hwf' : wfO (.cons k v' tl) = true := hwf
            have hlen3 : (serO (.cons k v' tl)).length + 1 ≤ f := by
              simp only [serC, List.length_append, List.length_cons,
                List.cons_append, List.length_nil] at hlen
              omega
            have hsplit : serO (.cons k v' tl) ++ rbrace :: rest
                = '"' :: (k.data ++ ('"' :: ':' :: serC v') ++ serOTail tl
                    ++ rbrace :: rest) := by
              simp [serO]
            have hform : serC (.obj (.cons k v' tl)) ++ rest
                = lbrace :: (serO (.cons k v' tl) ++ rbrace :: rest) := by
              simp [serC]
            rw [hform, hsplit]
            rw [parseVal_step_obj f '"'
              (k.data ++ ('"' :: ':' :: serC v') ++ serOTail tl ++ rbrace :: rest)
              (by decide) (by decide)]
            rw [← hsplit]
            rw [IHm (.cons k v' tl) rest hwf'
              (fun hcon => JsonObj.noConfusion hcon) hlen3]
      · intro xs rest hwf hne hlen
        cases xs with
        | nil => exact absurd rfl hne
        | cons v tl =>
          rw [wfL, Bool.and_eq_true] at hwf
          obtain ⟨hwfv, hwftl⟩ := hwf
          cases tl with
          | nil =>
            have hlv : (serC v).length ≤ f := by
              simp only [serL, serLTail, List.length_append, List.length_nil]
                at hlen
              omega
            have hlist : serL (.cons v .nil) ++ ']' :: rest
                = serC v ++ ']' :: rest := by
              simp [serL, serLTail]
            have hv := IHv v (']' :: rest) hwfv hlv rfl
            have hstep : parseElems (f + 1) (serC v ++ ']' :: rest)
                = (match parseVal f (serC v ++ ']' :: rest) with
                   | none => none
                   | some p =>
                     match skipWs p.2 with
                     | [] => none
                     | d :: rest' =>
                       if d = ',' then
                         match parseElems f rest' with
                         | some q => some (.cons p.1 q.1, q.2)
                         | none => none
                       else if d = ']' then some (.cons p.1 .nil, rest')
                       else none) := rfl
            rw [hlist, hstep, hv]
            rfl
          | cons w tl2 =>
            have htail : serLTail (.cons w tl2) = ',' :: serL (.cons w tl2) :=
              serLTail_cons w tl2
            have hlv : (serC v).length ≤ f := by
              simp only [serL, htail, List.length_append, List.length_cons]
                at hlen
              omega
            have hlrec : (serL (.cons w tl2)).length + 1 ≤ f := by
              simp only [serL, htail, List.length_append, List.length_cons]
                at hlen
              simp only [serL, List.length_append]
              omega
            have hlist : serL (.cons v (.cons w tl2)) ++ ']' :: rest
                = serC v ++ ',' :: (serL (.cons w tl2) ++ ']' :: rest) := by
              simp [serL, htail]
            have hv := IHv v (',' :: (serL (.cons w tl2) ++ ']' :: rest))
              hwfv hlv rfl
            have hrec := IHe (.cons w tl2) rest hwftl
              (fun hcon => JsonList.noConfusion hcon) hlrec
            have hstep : parseElems (f + 1)
                (serC v ++ ',' :: (serL (.cons w tl2) ++ ']' :: rest))
                = (match parseVal f
                    (serC v ++ ',' :: (serL (.cons w tl2) ++ ']' :: rest)) with
                   | none => none
                   | some p =>
                     match skipWs p.2 with
                     | [] => none
                     | d :: rest' =>
                       if d = ',' then
                         match parseElems f rest' with
                         | some q => some (.cons p.1 q.1, q.2)
                         | none => none
                       else if d = ']' then some (.cons p.1 .nil, rest')
                       else none) := rfl
            rw [hlist, hstep, hv]
            show (match parseElems f (serL (.cons w tl2) ++ ']' :: rest) with
                  | some q => some (JsonList.cons v q.1, q.2)
                  | none => none)
                = some (JsonList.cons v (.cons w tl2), rest)
            rw [hrec]
      · intro fs rest hwf hne hlen
        cases fs with
        | nil => exact absurd rfl hne
        | cons k v tl =>
          rw [wfO, Bool.and_eq_true, Bool.and_eq_true, Bool.and_eq_true] at hwf
          obtain ⟨⟨⟨hstrk, hwfv⟩, hwftl⟩, hklt⟩ := hwf
          cases tl with
          | nil =>
            have hlv : (serC v).length ≤ f := by
              simp only [serO, serOTail, List.length_append, List.length_cons,
                List.length_nil] at hlen
              omega
            have hmem : serO (.cons k v .nil) ++ rbrace :: rest
                = '"' :: (k.data ++ '"' :: (':' :: (serC v ++ rbrace :: rest))) := by
              simp [serO, serOTail]
            have hv := IHv v (rbrace :: rest) hwfv hlv rfl
            have hstep : parseMembers (f + 1)
                ('"' :: (k.data ++ '"' :: (':' :: (serC v ++ rbrace :: rest))))
                = (match parseStrRest
                      (k.data ++ '"' :: (':' :: (serC v ++ rbrace :: rest))) with
                   | none => none
                   | some kk =>
                     match skipWs kk.2 with
                     | [] => none
                     | d :: r2 =>
                       if d = ':' then
                         match parseVal f r2 with
                         | none => none
                         | some vv =>
                           match skipWs vv.2 with
                           | [] => none
                           | e :: r3 =>
                             if e = ',' then
                               match parseMembers f r3 with
                               | some q =>
                                 some (insertKV (String.mk kk.1) vv.1 q.1, q.2)
                               | none => none
                             else if e = rbrace then
                               some (.cons (String.mk kk.1) vv.1 .nil, r3)
                             else none
                       else none) := rfl
            rw [hmem, hstep,
              parseStrRest_append k.data (':' :: (serC v ++ rbrace :: rest)) hstrk]
            show (match parseVal f (serC v ++ rbrace :: rest) with
                  | none => none
                  | some vv =>
                    match skipWs vv.2 with
                    | [] => none
                    | e :: r3 =>
                      if e = ',' then
                        match parseMembers f r3 with
                        | some q => some (insertKV (String.mk k.data) vv.1 q.1, q.2)
                        | none => none
                      else if e = rbrace then
                        some (.cons (String.mk k.data) vv.1 .nil, r3)
                      else none)
                = some (JsonObj.cons k v .nil, rest)
            rw [hv]
            rfl
          | cons k2 v2 tl2 =>
            have hk2 : keyLt k k2 = true := by
              simpa [keyLtHead] using hklt
            have hlv : (serC v).length ≤ f := by
              simp only [serO, serOTail, List.length_append, List.length_cons]
                at hlen
              omega
            have hlrec : (serO (.cons k2 v2 tl2)).length + 1 ≤ f := by
              simp only [serO, serOTail, List.length_append, List.length_cons]
                at hlen ⊢
              omega
            have hmem : serO (.cons k v (.cons k2 v2 tl2)) ++ rbrace :: rest
                = '"' :: (k.data ++ '"' :: (':' :: (serC v
                    ++ ',' :: (serO (.cons k2 v2 tl2) ++ rbrace :: rest)))) := by
              rw [serO.eq_def]
              simp [serOTail_cons]
            have hv := IHv v
              (',' :: (serO (.cons k2 v2 tl2) ++ rbrace :: rest)) hwfv hlv rfl
            have hrec := IHm (.cons k2 v2 tl2) rest hwftl
              (fun hcon => JsonObj.noConfusion hcon) hlrec
            have hstep : parseMembers (f + 1)
                ('"' :: (k.data ++ '"' :: (':' :: (serC v
                    ++ ',' :: (serO (.cons k2 v2 tl2) ++ rbrace :: rest)))))
                = (match parseStrRest (k.data ++ '"' :: (':' :: (serC v
                      ++ ',' :: (serO (.cons k2 v2 tl2) ++ rbrace :: rest)))) with
                   | none => none
                   | some kk =>
                     match skipWs kk.2 with
                     | [] => none
                     | d :: r2 =>
                       if d = ':' then
                         match parseVal f r2 with
                         | none => none
                         | some vv =>
                           match skipWs vv.2 with
                           | [] => none
                           | e :: r3 =>
                             if e = ',' then
                               match parseMembers f r3 with
                               | some q =>
                                 some (insertKV (String.mk kk.1) vv.1 q.1, q.2)
                               | none => none
                             else if e = rbrace then
                               some (.cons (String.mk kk.1) vv.1 .nil, r3)
                             else none
                       else none) := rfl
            rw [hmem, hstep, parseStrRest_append k.data
              (':' :: (serC v ++ ',' :: (serO (.cons k2 v2 tl2) ++ rbrace :: rest)))
              hstrk]
            show (match parseVal f (serC v
                    ++ ',' :: (serO (.cons k2 v2 tl2) ++ rbrace :: rest)) with
                  | none => none
                  | some vv =>
                    match skipWs vv.2 with
                    | [] => none
                    | e :: r3 =>
                      if e = ',' then
                        match parseMembers f r3 with
                        | some q => some (insertKV (String.mk k.data) vv.1 q.1, q.2)
                        | none => none
                      else if e = rbrace then
                        some (.cons (String.mk k.data) vv.1 .nil, r3)
                      else none)
                = some (JsonObj.cons k v (.cons k2 v2 tl2), rest)
            rw [hv]
            show (match parseMembers f (serO (.cons k2 v2 tl2) ++ rbrace :: rest) with
                  | some q => some (insertKV (String.mk k.data) v q.1, q.2)
                  | none => none)
                = some (JsonObj.cons k v (.cons k2 v2 tl2), rest)
            rw [hrec]
            show some (insertKV k v (.cons k2 v2 tl2), rest)
              = some (JsonObj.cons k v (.cons k2 v2 tl2), rest)
            rw [insertKV.eq_def]
            simp [hk2]

end Server

namespace Server

/-- Top-level round trip: re-parsing a serialized well-formed value (as
`res.json::<Value>()` does to a body the gateway itself serialized) yields
the value back. -/
theorem parse_serialize (v : Json) (h : wfJson v = true) :
    parseJson (serialize v) = some v := by
  have hv := (parse_serC ((serC v).length + 1)).1 v [] h
    (Nat.le_succ _) rfl
  rw [List.append_nil] at hv
  show (match parseVal ((serC v).length + 1) (serC v) with
        | some p =>
          match skipWs p.2 with
          | [] => some p.1
          | _ :: _ => none
        | none => none) = some v
  rw [hv]
  rfl

/-- Witness for `parse_serialize` at a concrete object. -/
theorem parse_serialize_witness :
    parseJson (serialize (.obj (.cons "a" (.num 1) .nil)))
      = some (.obj (.cons "a" (.num 1) .nil)) :=
  parse_serialize (.obj (.cons "a" (.num 1) .nil)) (by decide)

end Server

namespace Server

/-- Claim C5, counterexample: a backend error reply whose body is not JSON
(status 404, body `oops`) is not passed through — the gateway replies 500
with its own error object, so "the original status code and body are passed
through unchanged" fails as stated. -/
theorem C5_counterexample :
    (analyze_handler (fun _ _ => .reply 404 "oops") gatewayState
        (.obj .nil)).response.status = 500
    ∧ (analyze_handler (fun _ _ => .reply 404 "oops") gatewayState
        (.obj .nil)).response.status ≠ 404
    ∧ (analyze_handler (fun _ _ => .reply 404 "oops") gatewayState
        (.obj .nil)).response.body
      = .obj (.cons "error" (.str decodeErrMsg) .nil) :=
  ⟨rfl, by decide, rfl⟩

/-- Claim C5, amended: (echo) if the backend echoes back with status 200
exactly the bytes it was sent, the gateway replies 200 with a body
byte-for-byte equal to the backend's body; (error pass-through) a backend
reply whose body parses as a JSON value is forwarded with its original
status code and that value as body; but a reply whose body is not JSON
becomes `500 {"error": ..}`. -/
theorem C5_pass_through :
    (∀ (st : GatewayAppState) (payload : Json)
      (backend : String → String → BackendReply),
      wfJson payload = true →
      (∀ url b, backend url b = .reply 200 b) →
      (analyze_handler backend st payload).response.status = 200
      ∧ serialize (analyze_handler backend st payload).response.body
          = serialize payload)
    ∧ (∀ (backend : String → String → BackendReply) (base endpoint : String)
      (payload : Json) (s : Nat) (b : String) (v : Json),
      backend (base ++ "/" ++ endpoint) (serialize payload) = .reply s b →
      parseJson b = some v →
      (proxy_to_julia backend base endpoint payload).response
        = ⟨s, v⟩)
    ∧ (∀ (backend : String → String → BackendReply) (base endpoint : String)
      (payload : Json) (s : Nat) (b : String),
      backend (base ++ "/" ++ endpoint) (serialize payload) = .reply s b →
      parseJson b = none →
      (proxy_to_julia backend base endpoint payload).response
        = ⟨500, .obj (.cons "error" (.str decodeErrMsg) .nil)⟩) := by
  refine ⟨?_, ?_, ?_⟩
  · intro st payload backend hwf hbackend
    have h1 : backend (st.julia_url ++ "/" ++ "analyze") (serialize payload)
        = .reply 200 (serialize payload) := hbackend _ _
    constructor <;>
      simp [analyze_handler, proxy_to_julia, h1, parse_serialize payload hwf]
  · intro backend base endpoint payload s b v hb hp
    simp [proxy_to_julia, hb, hp]
  · intro backend base endpoint payload s b hb hp
    simp [proxy_to_julia, hb, hp]

/-- Witness for `C5_pass_through`: an echo backend on a one-field object,
a 404 reply with JSON body `[1, 2]`, and a 404 reply with non-JSON body. -/
theorem C5_pass_through_witness :
    ((analyze_handler (fun _ b => .reply 200 b) gatewayState
        (.obj (.cons "x" (.num 1) .nil))).response.status = 200
      ∧ serialize (analyze_handler (fun _ b => .reply 200 b) gatewayState
          (.obj (.cons "x" (.num 1) .nil))).response.body
        = serialize (.obj (.cons "x" (.num 1) .nil)))
    ∧ (proxy_to_julia (fun _ _ => .reply 404 "[1, 2]") "http://127.0.0.1:8081"
        "analyze" (.obj .nil)).response
      = ⟨404, .arr (.cons (.num 1) (.cons (.num 2) .nil))⟩
    ∧ (proxy_to_julia (fun _ _ => .reply 404 "oops") "http://127.0.0.1:8081"
        "analyze" (.obj .nil)).response
      = ⟨500, .obj (.cons "error" (.str decodeErrMsg) .nil)⟩ := by
  refine ⟨?_, ?_, ?_⟩
  · exact C5_pass_through.1 gatewayState (.obj (.cons "x" (.num 1) .nil))
      (fun _ b => .reply 200 b) (by decide) (fun _ _ => rfl)
  · exact C5_pass_through.2.1 (fun _ _ => .reply 404 "[1, 2]")
      "http://127.0.0.1:8081" "analyze" (.obj .nil) 404 "[1, 2]"
      (.arr (.cons (.num 1) (.cons (.num 2) .nil))) rfl rfl
  · exact C5_pass_through.2.2 (fun _ _ => .reply 404 "oops")
      "http://127.0.0.1:8081" "analyze" (.obj .nil) 404 "oops" rfl rfl

/-- Claim C7: a transport-level failure makes each of the three proxied
handlers (analyze, optimize, mesh) answer 502 with a JSON object carrying
an `error` key, after issuing exactly one backend request (no retry, no
silent drop). -/
theorem C7_transport_failure :
    ∀ (backend : String → String → BackendReply) (st : GatewayAppState)
      (payload : Json) (e : String),
      (∀ url b, backend url b = .transportError e) →
      ((analyze_handler backend st payload).response.status = 502
        ∧ Json.getKey "error" (analyze_handler backend st payload).response.body
            = some (.str e)
        ∧ (analyze_handler backend st payload).requests.length = 1)
      ∧ ((optimize_handler backend st payload).response.status = 502
        ∧ Json.getKey "error" (optimize_handler backend st payload).response.body
            = some (.str e)
        ∧ (optimize_handler backend st payload).requests.length = 1)
      ∧ ((mesh_handler backend st payload).response.status = 502
        ∧ Json.getKey "error" (mesh_handler backend st payload).response.body
            = some (.str e)
        ∧ (mesh_handler backend st payload).requests.length = 1) := by
  intro backend st payload e hb
  refine ⟨⟨?_, ?_, ?_⟩, ⟨?_, ?_, ?_⟩, ⟨?_, ?_, ?_⟩⟩ <;>
    simp [analyze_handler, optimize_handler, mesh_handler, proxy_to_julia,
      hb, Json.getKey, getField]

/-- Witness for `C7_transport_failure` with a concrete unreachable
backend. -/
theorem C7_transport_failure_witness :
    (analyze_handler (fun _ _ => .transportError "connection refused")
        gatewayState (.obj .nil)).response.status = 502
    ∧ Json.getKey "error" (optimize_handler
        (fun _ _ => .transportError "connection refused") gatewayState
        (.obj .nil)).response.body = some (.str "connection refused")
    ∧ (mesh_handler (fun _ _ => .transportError "connection refused")
        gatewayState (.obj .nil)).requests.length = 1 := by
  have h := C7_transport_failure
    (fun _ _ => .transportError "connection refused") gatewayState (.obj .nil)
    "connection refused" (fun _ _ => rfl)
  exact ⟨h.1.1, h.2.1.2.1, h.2.2.2.2⟩

/-- Claim C8, counterexample: `main.rs` creates one `AgentWorkspaceState`
shared by every WebSocket connection, so after connection A handles a valid
frame and closes, connection B's handler works on a history that already
contains A's entry — the per-connection isolated `ChatSession` of the claim
is false on the code. -/
theorem C8_counterexample :
    ((handleTextFrame (handleTextFrame AgentWorkspaceState.new
        "\x7b\"agent_type\":\"design\",\"content\":\"hello from A\",\"timestamp\":1\x7d").1
        "\x7b\"agent_type\":\"analysis\",\"content\":\"hi from B\",\"timestamp\":2\x7d").1.chat_history
      = [("user", "hello from A"), ("user", "hi from B")])
    ∧ ((handleTextFrame (handleTextFrame AgentWorkspaceState.new
        "\x7b\"agent_type\":\"design\",\"content\":\"hello from A\",\"timestamp\":1\x7d").1
        "\x7b\"agent_type\":\"analysis\",\"content\":\"hi from B\",\"timestamp\":2\x7d").1.chat_history
      ≠ [("user", "hi from B")]) :=
  ⟨rfl, by decide⟩

/-- Claim C8, amended: all connections share the single
`AgentWorkspaceState` created at server start; a `("user", content)` entry
appended by one connection's handler is observed by every later handler
call on any connection, and the history persists after the appending
connection closes — handling a frame on connection B after connection A
leaves both entries, in order, on the shared history. -/
theorem C8_shared_workspace :
    ∀ (w : AgentWorkspaceState) (tA tB : String) (mA mB : AgentMessage),
      parseAgentMessage tA = some mA → parseAgentMessage tB = some mB →
      (handleTextFrame (handleTextFrame w tA).1 tB).1.chat_history
        = w.chat_history ++ [("user", mA.content), ("user", mB.content)] := by
  intro w tA tB mA mB hA hB
  simp [handleTextFrame, hA, hB]

/-- Witness for `C8_shared_workspace` on the two concrete frames. -/
theorem C8_shared_workspace_witness :
    (handleTextFrame (handleTextFrame AgentWorkspaceState.new
        "\x7b\"agent_type\":\"design\",\"content\":\"hello from A\",\"timestamp\":1\x7d").1
        "\x7b\"agent_type\":\"analysis\",\"content\":\"hi from B\",\"timestamp\":2\x7d").1.chat_history
      = AgentWorkspaceState.new.chat_history
          ++ [("user", "hello from A"), ("user", "hi from B")] :=
  C8_shared_workspace AgentWorkspaceState.new _ _
    ⟨"design", "hello from A", 1⟩ ⟨"analysis", "hi from B", 2⟩ rfl rfl

/-- Claim C9: a text frame that fails to parse as an `AgentMessage` is
skipped — the shared workspace (hence the chat history) is unchanged, no
response frame is produced, and the receive loop continues with the
remaining frames exactly as if the malformed frame had not arrived (the
connection is not closed). -/
theorem C9_malformed_skipped :
    ∀ (w : AgentWorkspaceState) (t : String) (frames : List WsMessage),
      parseAgentMessage t = none →
      handleTextFrame w t = (w, none)
      ∧ runConnLoop w (.text t :: frames) = runConnLoop w frames := by
  intro w t frames h
  have h1 : handleTextFrame w t = (w, none) := by
    simp [handleTextFrame, h]
  refine ⟨h1, ?_⟩
  simp [runConnLoop, h1]

/-- Witness for `C9_malformed_skipped` on a non-JSON frame. -/
theorem C9_malformed_skipped_witness :
    handleTextFrame AgentWorkspaceState.new "not json"
      = (AgentWorkspaceState.new, none)
    ∧ runConnLoop AgentWorkspaceState.new
        [.text "not json",
          .text "\x7b\"agent_type\":\"design\",\"content\":\"hello\",\"timestamp\":1\x7d"]
      = runConnLoop AgentWorkspaceState.new
          [.text "\x7b\"agent_type\":\"design\",\"content\":\"hello\",\"timestamp\":1\x7d"] :=
  C9_malformed_skipped AgentWorkspaceState.new "not json" _ rfl

end Server
